import Mathlib

/-!
Verification of the Karigar workflow orchestration core.

This development shallowly embeds the orchestration engine of the
karigar-agent repository:

* the shared workflow state (src/karigar/schemas/state.py, KarigarState),
  extended with the fields the agents and the HTTP layer thread through it
  (request_id, order_id, error, ... as listed in the design document's data
  model and initialised in main.py);
* the transition policy should_continue and the stage graph built by
  KarigarWorkflow._build_graph (src/karigar/orchestrators/workflow.py);
* the five stage implementations IntakeAgent, SupplierAgent, CommitAgent,
  SalesAgent and CashAgent (src/karigar/agents/), with every external
  effect (LLM call, JSON parsing, SQL session, file generation, web search)
  supplied by an explicit environment record so that each process function
  is a total Lean function of the environment and the state;
* the run loop.  The loop itself is executed by the LangGraph library,
  which is not part of the repository; its invoke/merge/route cycle is
  modelled from the design document (section 4.3): invoke the stage named
  by the policy, merge the returned update into the state, repeat until
  the policy answers end.  The merge honours the reducer annotation
  declared in state.py: every field is last-writer-wins except messages,
  whose add_messages reducer appends the update's messages.  A stage
  invocation that raises is modelled by an Except.error result, which the
  loop propagates, matching KarigarWorkflow.run, which installs no handler.
-/

/-- A chat message, as the role/content dicts the repository places in the
messages list (agent_routes.py, main.py).  IntakeAgent reads only the
content of the last message. -/
structure Message where
  role : String
  content : String
deriving DecidableEq, Repr

/-- The structured material request built by IntakeAgent.process and stored
under the material_request key.  Numeric amounts are modelled as integers;
no verified property depends on fractional arithmetic. -/
structure MaterialRequest where
  material : String
  quantity : Int
  unit : String
  budget : Int
  timeline : String
  location : Option String
deriving DecidableEq, Repr

/-- One supplier quote dict, as produced by SupplierAgent.process from the
quote records (supplier_agent.py, lines 64-73). -/
structure Quote where
  id : String
  supplier_id : String
  price_per_unit : Int
  total_price : Int
  delivery_charge : Int
  delivery_days : Int
deriving DecidableEq, Repr

/-- The order_details dict written by CommitAgent.process
(commit_agent.py, lines 115-118). -/
structure OrderDetails where
  total_amount : Int
  status : String
deriving DecidableEq, Repr

/-- The payment package produced for an order; only the upi_link member is
read back by the repository code. -/
structure PaymentPackage where
  upi_link : String
deriving DecidableEq, Repr

/-- The shared workflow state.  Fields are the KarigarState TypedDict of
schemas/state.py together with the further keys the agents read and write
and main.py initialises (request_id, order_id, payment_info, po_path,
store_id, error, artisan_name, artisan_phone, artisan_location); the design
document's data model lists these as identity, payload and control fields.
An absent key is modelled as none (respectively the empty list), matching
the agents' state.get accesses which default absent keys to None or []. -/
structure KarigarState where
  messages : List Message := []
  artisan_id : Option String := none
  artisan_name : Option String := none
  artisan_phone : Option String := none
  artisan_location : Option String := none
  material_request : Option MaterialRequest := none
  request_id : Option String := none
  supplier_quotes : List Quote := []
  selected_quote : Option Quote := none
  order_id : Option String := none
  order_details : Option OrderDetails := none
  payment_info : Option PaymentPackage := none
  po_path : Option String := none
  store_url : Option String := none
  store_id : Option String := none
  status : Option String := none
  error : Option String := none
deriving DecidableEq, Repr

/-- A partial state update as returned by a stage: each field is present
(some value) or absent (none).  The agents never emit an explicit null
value for a key, so presence of a key coincides with presence of a value. -/
structure StateUpdate where
  messages : Option (List Message) := none
  artisan_id : Option String := none
  artisan_name : Option String := none
  artisan_phone : Option String := none
  artisan_location : Option String := none
  material_request : Option MaterialRequest := none
  request_id : Option String := none
  supplier_quotes : Option (List Quote) := none
  selected_quote : Option Quote := none
  order_id : Option String := none
  order_details : Option OrderDetails := none
  payment_info : Option PaymentPackage := none
  po_path : Option String := none
  store_url : Option String := none
  store_id : Option String := none
  status : Option String := none
  error : Option String := none
deriving DecidableEq, Repr

/-- Last-writer-wins on one field: a key present in the update overwrites
the state's value, an absent key leaves it unchanged. -/
def upd {α : Type} (old : Option α) (new : Option α) : Option α :=
  match new with
  | some v => some v
  | none => old

/-- Modelled from the spec: the merge of a stage's partial update into the
workflow state, performed by the graph engine (LangGraph), which is not
part of the repository.  Per the design document it deletes no key and
overwrites exactly the keys present in the update, except that the
messages channel is declared in schemas/state.py with the add_messages
reducer, which appends the update's messages to the existing list (the
repository's messages carry no explicit ids, so the reducer's
replace-by-id clause never fires). -/
def mergeState (s : KarigarState) (u : StateUpdate) : KarigarState where
  messages := s.messages ++ (u.messages).getD []
  artisan_id := upd s.artisan_id u.artisan_id
  artisan_name := upd s.artisan_name u.artisan_name
  artisan_phone := upd s.artisan_phone u.artisan_phone
  artisan_location := upd s.artisan_location u.artisan_location
  material_request := upd s.material_request u.material_request
  request_id := upd s.request_id u.request_id
  supplier_quotes := (upd (some s.supplier_quotes) u.supplier_quotes).getD []
  selected_quote := upd s.selected_quote u.selected_quote
  order_id := upd s.order_id u.order_id
  order_details := upd s.order_details u.order_details
  payment_info := upd s.payment_info u.payment_info
  po_path := upd s.po_path u.po_path
  store_url := upd s.store_url u.store_url
  store_id := upd s.store_id u.store_id
  status := upd s.status u.status
  error := upd s.error u.error

/-- The transition policy, translated from should_continue in
orchestrators/workflow.py (lines 46-71): a cascade of equality tests on
the status field, falling through to end. -/
def should_continue (state : KarigarState) : String :=
  if state.status = some "error" then "end"
  else if state.status = some "intake_complete" then "supplier"
  else if state.status = some "supplier_search_complete" then "commit"
  else if state.status = some "commit_complete" then "sales"
  else if state.status = some "sales_complete" ∨ state.status = some "sales_skipped" then "cash"
  else if state.status = some "cash_complete" then "end"
  else "end"

/-- Python truthiness of an optional string: absent and empty are falsy. -/
def truthyStr : Option String → Bool
  | none => false
  | some s => !(s = "")

/-- Material data extracted from the user message, as the dict the LLM (or
the rule-based fallback) returns in intake_agent.py: every field may be
null. -/
structure Extracted where
  material : Option String := none
  quantity : Option Int := none
  unit : Option String := none
  budget : Option Int := none
  timeline : Option String := none
  location : Option String := none
deriving DecidableEq, Repr

/-- Outcome of the LLM extraction branch of IntakeAgent.process: the
invoke call can raise (caught by the outer handler with the fault text),
the response can fail JSON parsing (reported as a parse failure), or it
yields parsed material data. -/
inductive LlmOutcome where
  | raised (msg : String)
  | badJson
  | parsed (data : Extracted)
deriving Repr

/-- Environment of IntakeAgent (intake_agent.py): an optional LLM (the
agent falls back to its rule-based extractor when no LLM is configured),
the rule-based extractor itself (a pure leaf whose regex internals no
verified property depends on), and the database transaction that persists
the artisan and the material request, returning the new request id or a
database fault message. -/
structure IntakeEnv where
  llm : Option (String → LlmOutcome)
  fallbackExtract : String → Extracted
  dbSave : String → MaterialRequest → Except String String

/-- Python str.strip emptiness: a string is blank when every character is
whitespace (so the empty string is blank).  This is the test `not
user_input.strip()` of intake_agent.py. -/
def isBlank (s : String) : Bool := s.data.all Char.isWhitespace

/-- A stage-reported failure update, the shape every agent produces on an
error exit path. -/
def errUpdate (msg : String) : StateUpdate :=
  { status := some "error", error := some msg }

/-- The extraction block of IntakeAgent.process: when an LLM is
configured, its raised faults (outer handler) and JSON parse failures
become structured errors; otherwise the rule-based extractor runs. -/
def intakeExtract (env : IntakeEnv) (user_input : String) :
    Except StateUpdate Extracted :=
  match env.llm with
  | some llm =>
    match llm user_input with
    | .raised msg => .error (errUpdate msg)
    | .badJson => .error (errUpdate "Failed to parse material request")
    | .parsed d => .ok d
  | none => .ok (env.fallbackExtract user_input)

/-- IntakeAgent.process (intake_agent.py, lines 42-202).  Reads the last
message's content; an absent or blank input is rejected before any
external call.  The LLM branch converts an invoke fault (outer handler)
or a JSON parse failure into structured errors; extracted data is
validated (Python falsiness: a missing or empty material, a missing or
zero quantity), normalised, and persisted, with database faults caught by
the inner handler and prefixed. -/
def IntakeAgent.process (env : IntakeEnv) (state : KarigarState) : StateUpdate :=
  let user_input := ((state.messages.getLast?).map Message.content).getD ""
  if isBlank user_input then errUpdate "No input provided"
  else
    match intakeExtract env user_input with
    | .error u => u
    | .ok md =>
      if md.material = none ∨ md.material = some "" then
        errUpdate "Material type not specified"
      else if md.quantity = none ∨ md.quantity = some 0 then
        errUpdate "Quantity not specified"
      else
        let material := (md.material.getD "").toLower
        let quantity := md.quantity.getD 0
        let unitVal := match md.unit with
          | some u => if u = "" then "units" else u
          | none => "units"
        let budget := md.budget.getD 0
        let timeline := match md.timeline with
          | some t => if t = "" then "ASAP" else t
          | none => "ASAP"
        let location := match md.location with
          | some l => if l = "" then state.artisan_location else some l
          | none => state.artisan_location
        let artisan_id :=
          if truthyStr state.artisan_id then state.artisan_id.getD ""
          else state.artisan_phone.getD "default-artisan"
        let mr : MaterialRequest :=
          ⟨material, quantity, unitVal, budget, timeline, location⟩
        match env.dbSave artisan_id mr with
        | .error e => errUpdate ("Database error: " ++ e)
        | .ok request_id =>
          { material_request := some mr
            request_id := some request_id
            artisan_id := some artisan_id
            status := some "intake_complete" }

/-- Environment of SupplierAgent (supplier_agent.py): the supplier search
(material and optional location in, an opaque list of supplier records
out, or a raised fault) and the quote generator (request id and suppliers
in, quote records out, or a raised fault). -/
structure SupplierEnv where
  search : String → Option String → Except String (List String)
  generateQuotes : String → List String → Except String (List Quote)

/-- SupplierAgent.process (supplier_agent.py, lines 22-84).  Requires a
truthy request_id and material_request; searches for suppliers, reports an
empty result as a structured error, generates quotes, reports an empty
quote list as a structured error; any raised fault is converted by the
outer handler into a structured error carrying the fault text. -/
def SupplierAgent.process (env : SupplierEnv) (state : KarigarState) : StateUpdate :=
  match state.request_id, state.material_request with
  | some rid, some mr =>
    if rid = "" then errUpdate "Missing material request details."
    else
      match env.search mr.material mr.location with
      | .error e => errUpdate e
      | .ok suppliers =>
        if suppliers = [] then
          errUpdate "No suppliers found for the material and location."
        else
          match env.generateQuotes rid suppliers with
          | .error e => errUpdate e
          | .ok quotes =>
            if quotes = [] then errUpdate "Failed to generate quotes."
            else
              { supplier_quotes := some quotes
                status := some "supplier_search_complete" }
  | _, _ => errUpdate "Missing material request details."

/-- Outcome of CommitAgent's database and document block: one of the four
records could not be retrieved (a structured error without prefix), the
block raised (caught and prefixed), or the order was created with its
payment package and purchase order document. -/
inductive CommitDbOutcome where
  | missingRecords
  | raised (msg : String)
  | ok (order_id : String) (total_amount : Int) (upi_link : String) (po_path : String)
deriving Repr

/-- Environment of CommitAgent (commit_agent.py): the database and
document block, given the selected quote id, the artisan id and the
request id. -/
structure CommitEnv where
  db : String → Option String → Option String → CommitDbOutcome

/-- The selection key of CommitAgent: total price plus delivery charge. -/
def quoteCost (q : Quote) : Int := q.total_price + q.delivery_charge

/-- Python min over a nonempty quote list with the quoteCost key: the
first quote of minimal cost. -/
def minCostQuote (q : Quote) (qs : List Quote) : Quote :=
  qs.foldl (fun best x => if quoteCost x < quoteCost best then x else best) q

/-- CommitAgent.process (commit_agent.py, lines 22-133).  Requires a
nonempty quote list, selects the cheapest quote, and runs the database and
document block; its failure modes are reported as structured errors and
success produces the order keys of the state. -/
def CommitAgent.process (env : CommitEnv) (state : KarigarState) : StateUpdate :=
  match state.supplier_quotes with
  | [] => errUpdate "No supplier quotes available to commit."
  | q :: qs =>
    let selected := minCostQuote q qs
    match env.db selected.id state.artisan_id state.request_id with
    | .missingRecords => errUpdate "Could not retrieve full order details from DB."
    | .raised e => errUpdate ("DB/File Error: " ++ e)
    | .ok order_id total_amount upi_link po_path =>
      { order_id := some order_id
        selected_quote := some selected
        order_details := some ⟨total_amount, "confirmed"⟩
        payment_info := some ⟨upi_link⟩
        po_path := some po_path
        status := some "commit_complete" }

/-- Outcome of SalesAgent's database block: the artisan already has a
store (skip, returning its url), the artisan record is missing (a
structured error), a store was created, or the block raised (caught and
prefixed). -/
inductive SalesDbOutcome where
  | existing (url : String)
  | artisanMissing
  | created (id : String) (url : String)
  | raised (msg : String)
deriving Repr

/-- Environment of SalesAgent (sales_agent.py): the database and store
generation block, given the artisan id. -/
structure SalesEnv where
  db : String → SalesDbOutcome

/-- SalesAgent.process (sales_agent.py, lines 20-101).  Skips (a
deliberate no-op that still advances the pipeline) when the artisan id is
falsy or no order details are present; otherwise creates at most one
micro-store per artisan. -/
def SalesAgent.process (env : SalesEnv) (state : KarigarState) : StateUpdate :=
  if truthyStr state.artisan_id = false ∨ state.order_details = none then
    { status := some "sales_skipped" }
  else
    match env.db (state.artisan_id.getD "") with
    | .existing url => { store_url := some url, status := some "sales_skipped" }
    | .artisanMissing => errUpdate "Artisan not found."
    | .created id url =>
      { store_id := some id, store_url := some url, status := some "sales_complete" }
    | .raised e => errUpdate ("DB/File Error: " ++ e)

/-- Outcome of CashAgent's ledger block: the entry was recorded, or the
block raised (caught and prefixed). -/
inductive CashDbOutcome where
  | ok
  | raised (msg : String)
deriving Repr

/-- Environment of CashAgent (cash_agent.py): the ledger transaction,
given the artisan id, the order id and the order details. -/
structure CashEnv where
  db : String → String → OrderDetails → CashDbOutcome

/-- CashAgent.process (cash_agent.py, lines 16-73).  Skips when any of
artisan_id, order_id or order_details is falsy (Python: absent, None or
empty); otherwise records the ledger entry, reporting a database fault as
a structured error. -/
def CashAgent.process (env : CashEnv) (state : KarigarState) : StateUpdate :=
  match state.artisan_id, state.order_id, state.order_details with
  | some aid, some oid, some od =>
    if aid = "" ∨ oid = "" then { status := some "cash_skipped" }
    else
      match env.db aid oid od with
      | .ok => { status := some "cash_complete" }
      | .raised e => errUpdate ("DB Error: " ++ e)
  | _, _, _ => { status := some "cash_skipped" }

/-- The bundle of the five agents' environments: one workflow run's
external world. -/
structure AgentsEnv where
  intake : IntakeEnv
  supplier : SupplierEnv
  commit : CommitEnv
  sales : SalesEnv
  cash : CashEnv

/-- The five named graph nodes registered by KarigarWorkflow._build_graph
(workflow.py, lines 39-43). -/
inductive Node where
  | intake
  | supplier
  | commit
  | sales
  | cash
deriving DecidableEq, Repr

/-- A stage registry: one invocable per node, as fixed at graph
construction time.  An invocation either returns a partial update or
raises (Except.error), the orchestrator installing no handler of its
own. -/
structure StageSet where
  intake : KarigarState → Except String StateUpdate
  supplier : KarigarState → Except String StateUpdate
  commit : KarigarState → Except String StateUpdate
  sales : KarigarState → Except String StateUpdate
  cash : KarigarState → Except String StateUpdate

/-- Look up the stage registered under a node name. -/
def invokeStage (ags : StageSet) : Node → KarigarState → Except String StateUpdate
  | .intake => ags.intake
  | .supplier => ags.supplier
  | .commit => ags.commit
  | .sales => ags.sales
  | .cash => ags.cash

/-- One recorded stage invocation: the node, the state it was invoked on,
the update it returned, and the state after the merge. -/
structure Step where
  node : Node
  stateBefore : KarigarState
  update : StateUpdate
  stateAfter : KarigarState
deriving DecidableEq, Repr

/-- Where a conditional edge sends the run: to the node's unique successor,
to END, or to no registered branch (the engine fails the run). -/
inductive Route where
  | next
  | stop
  | invalid
deriving DecidableEq, Repr

/-- The conditional edge maps of _build_graph (workflow.py, lines 74-99):
each node maps selected policy answers to its unique successor or to END;
an answer outside the node's map has no registered branch. -/
def route : Node → String → Route
  | .intake, d => if d = "supplier" then .next else if d = "end" then .stop else .invalid
  | .supplier, d => if d = "commit" then .next else if d = "end" then .stop else .invalid
  | .commit, d => if d = "sales" then .next else if d = "end" then .stop else .invalid
  | .sales, d => if d = "cash" then .next else if d = "end" then .stop else .invalid
  | .cash, d => if d = "end" then .stop else .invalid

/-- The linear node order of the graph: the START edge enters at intake
unconditionally, and each conditional edge's non-END target is the next
node of this list. -/
def pipelineNodes : List Node := [.intake, .supplier, .commit, .sales, .cash]

/-- Modelled from the spec: the run loop executed by the graph engine
(LangGraph's compiled-graph invoke, not part of the repository), per the
design document's section 4.3: invoke the stage at the current node, merge
its update into the state, ask the policy, and either stop (END), follow
the edge to the node's successor, or fail on an unregistered branch.  The
trace records every completed stage invocation in order.  A raised stage
fault is propagated, as KarigarWorkflow.run installs no handler.  A next
answer moves to the following node of the list; only the cash node has no
successor, and its edge map holds no next entry (route never answers next
for it), so the recursion is only ever taken with a nonempty remainder. -/
def runList (ags : StageSet) : List Node → KarigarState → List Step × Except String KarigarState
  | [], s => ([], .ok s)
  | n :: rest, s =>
    match invokeStage ags n s with
    | .error e => ([], .error e)
    | .ok u =>
      let s2 := mergeState s u
      let st : Step := ⟨n, s, u, s2⟩
      match route n (should_continue s2) with
      | .stop => ([st], .ok s2)
      | .invalid => ([st], .error "unknown branch")
      | .next =>
        let r := runList ags rest s2
        (st :: r.1, r.2)

/-- KarigarWorkflow.run (workflow.py, lines 104-114): invoke the compiled
graph on the initial state, entering at intake. -/
def KarigarWorkflow.run (ags : StageSet) (initial_state : KarigarState) :
    List Step × Except String KarigarState :=
  runList ags pipelineNodes initial_state

/-- The concrete stage registry of _build_graph: the five agents'
process methods.  Each is a total function of its environment and the
state (their bodies catch their own faults), so every invocation returns
an update and none raises. -/
def packagedAgents (env : AgentsEnv) : StageSet where
  intake := fun s => .ok (IntakeAgent.process env.intake s)
  supplier := fun s => .ok (SupplierAgent.process env.supplier s)
  commit := fun s => .ok (CommitAgent.process env.commit s)
  sales := fun s => .ok (SalesAgent.process env.sales s)
  cash := fun s => .ok (CashAgent.process env.cash s)


/-- The canonical transition table as the design document states it, one
row per listed status value and a default row sending every other status
to end. -/
def specNext (st : Option String) : String :=
  if st = some "error" then "end"
  else if st = some "intake_complete" then "supplier"
  else if st = some "supplier_search_complete" then "commit"
  else if st = some "commit_complete" then "sales"
  else if st = some "sales_complete" then "cash"
  else if st = some "sales_skipped" then "cash"
  else if st = some "cash_complete" then "end"
  else "end"

/-- A minimal concrete environment: no LLM, an extractor that finds
nothing, and failing or empty external services. -/
def envEmpty : AgentsEnv where
  intake := { llm := none, fallbackExtract := fun _ => {}, dbSave := fun _ _ => .error "no db" }
  supplier := { search := fun _ _ => .ok [], generateQuotes := fun _ _ => .ok [] }
  commit := { db := fun _ _ _ => .missingRecords }
  sales := { db := fun _ => .artisanMissing }
  cash := { db := fun _ _ _ => .raised "no db" }

/-- A wholly absent initial state: every key missing. -/
def s0Blank : KarigarState := {}

/-- An initial state already tagged with the error status, error message
absent. -/
def s0ErrInit : KarigarState := { status := some "error" }

/-- An initial state with one blank (whitespace-only) user message. -/
def s0BlankMsg : KarigarState := { messages := [⟨"user", "   "⟩] }

/-- A typical initial state as agent_routes.py builds it. -/
def s0Typical : KarigarState :=
  { messages := [⟨"user", "I need 50 kg cement in Delhi"⟩]
    artisan_id := some "ART1"
    artisan_phone := some "9876543210"
    artisan_name := some "Ravi"
    status := some "started" }

/-- A stage registry whose intake stage raises instead of returning a
structured update; the other stages are the packaged agents. -/
def raisingStages : StageSet :=
  { packagedAgents envEmpty with intake := fun _ => .error "boom" }

/-- An environment whose intake succeeds (extraction finds cement and a
quantity, the database accepts the request) but whose supplier search
finds no suppliers. -/
def envNoSuppliers : AgentsEnv where
  intake :=
    { llm := none
      fallbackExtract := fun _ =>
        { material := some "cement", quantity := some 50
          unit := some "kg", location := some "Delhi" }
      dbSave := fun _ _ => .ok "R1" }
  supplier := { search := fun _ _ => .ok [], generateQuotes := fun _ _ => .ok [] }
  commit := { db := fun _ _ _ => .missingRecords }
  sales := { db := fun _ => .artisanMissing }
  cash := { db := fun _ _ _ => .raised "no db" }

/-- The single step of the run of the packaged agents from the blank
state: intake rejects the missing input. -/
def c2Step : Step :=
  ⟨Node.intake, s0Blank, errUpdate "No input provided",
   mergeState s0Blank (errUpdate "No input provided")⟩

/-- The single step of the run of the packaged agents from the
error-tagged initial state: intake still executes and rejects the missing
input. -/
def c4Step : Step :=
  ⟨Node.intake, s0ErrInit, errUpdate "No input provided",
   mergeState s0ErrInit (errUpdate "No input provided")⟩

/-- First step of the no-suppliers run: intake completes. -/
def c7StepIntake : Step :=
  ⟨Node.intake, s0Typical, IntakeAgent.process envNoSuppliers.intake s0Typical,
   mergeState s0Typical (IntakeAgent.process envNoSuppliers.intake s0Typical)⟩

/-- Second step of the no-suppliers run: the supplier stage reports the
empty search as a structured error. -/
def c7StepSupplier : Step :=
  ⟨Node.supplier, c7StepIntake.stateAfter,
   SupplierAgent.process envNoSuppliers.supplier c7StepIntake.stateAfter,
   mergeState c7StepIntake.stateAfter
     (SupplierAgent.process envNoSuppliers.supplier c7StepIntake.stateAfter)⟩

/-- A first and a second chat message, distinguishing append from
overwrite in the merge of the messages channel. -/
def msgA : Message := ⟨"user", "I need 50 bricks"⟩

/-- Second message, see msgA. -/
def msgB : Message := ⟨"user", "make it 60"⟩


theorem upd_some {α : Type} (old : Option α) (v : α) : upd old (some v) = some v := rfl

theorem upd_none {α : Type} (old : Option α) : upd old none = old := rfl

/-- The merged status is the update's status whenever the update carries
one. -/
theorem mergeState_status_some (s : KarigarState) (u : StateUpdate) (v : String)
    (h : u.status = some v) : (mergeState s u).status = some v := by
  simp [mergeState, h, upd_some]

/-- The merged error message is the update's whenever the update carries
one. -/
theorem mergeState_error_some (s : KarigarState) (u : StateUpdate) (v : String)
    (h : u.error = some v) : (mergeState s u).error = some v := by
  simp [mergeState, h, upd_some]

/-- A state whose status is the error tag is routed to end. -/
theorem should_continue_error (s : KarigarState) (h : s.status = some "error") :
    should_continue s = "end" := by
  simp [should_continue, h]

/-- A state whose status is the cash skip tag matches no entry of the
transition cascade and falls through to end. -/
theorem should_continue_cash_skipped (s : KarigarState)
    (h : s.status = some "cash_skipped") : should_continue s = "end" := by
  simp [should_continue, h]

/-- Every node's conditional edge map sends the end answer to END. -/
theorem route_end_stop (n : Node) : route n "end" = Route.stop := by
  cases n <;> rfl

theorem runList_nil (ags : StageSet) (s : KarigarState) :
    runList ags [] s = ([], .ok s) := rfl

theorem runList_cons_error (ags : StageSet) (n : Node) (rest : List Node)
    (s : KarigarState) (e : String) (h : invokeStage ags n s = .error e) :
    runList ags (n :: rest) s = ([], .error e) := by
  simp only [runList]
  rw [h]

theorem runList_cons_stop (ags : StageSet) (n : Node) (rest : List Node)
    (s : KarigarState) (u : StateUpdate) (hinv : invokeStage ags n s = .ok u)
    (hr : route n (should_continue (mergeState s u)) = .stop) :
    runList ags (n :: rest) s = ([⟨n, s, u, mergeState s u⟩], .ok (mergeState s u)) := by
  simp only [runList]
  rw [hinv]
  simp only [hr]

theorem runList_cons_invalid (ags : StageSet) (n : Node) (rest : List Node)
    (s : KarigarState) (u : StateUpdate) (hinv : invokeStage ags n s = .ok u)
    (hr : route n (should_continue (mergeState s u)) = .invalid) :
    runList ags (n :: rest) s
      = ([⟨n, s, u, mergeState s u⟩], .error "unknown branch") := by
  simp only [runList]
  rw [hinv]
  simp only [hr]

theorem runList_cons_next (ags : StageSet) (n : Node) (rest : List Node)
    (s : KarigarState) (u : StateUpdate) (hinv : invokeStage ags n s = .ok u)
    (hr : route n (should_continue (mergeState s u)) = .next) :
    runList ags (n :: rest) s
      = (⟨n, s, u, mergeState s u⟩ :: (runList ags rest (mergeState s u)).1,
         (runList ags rest (mergeState s u)).2) := by
  simp only [runList]
  rw [hinv]
  simp only [hr]

theorem singleton_decomp {α : Type} (a st : α) (pre post : List α)
    (h : [a] = pre ++ st :: post) : pre = [] ∧ st = a ∧ post = [] := by
  cases pre with
  | nil =>
    simp only [List.nil_append] at h
    have h2 := (List.cons.injEq a [] st post).mp h
    exact ⟨rfl, h2.1.symm, h2.2.symm⟩
  | cons p pre2 =>
    simp only [List.cons_append] at h
    have h2 := (List.cons.injEq a [] p (pre2 ++ st :: post)).mp h
    exact absurd h2.2.symm
      (List.append_ne_nil_of_right_ne_nil pre2 (List.cons_ne_nil st post))

theorem runList_trace_initial (ags : StageSet) :
    ∀ (nodes : List Node) (s : KarigarState),
      ∃ t, ((runList ags nodes s).1.map Step.node) ++ t = nodes := by
  intro nodes
  induction nodes with
  | nil => exact fun s => ⟨[], rfl⟩
  | cons n rest ih =>
    intro s
    cases hinv : invokeStage ags n s with
    | error e =>
      exact ⟨n :: rest, by rw [runList_cons_error ags n rest s e hinv]; rfl⟩
    | ok u =>
      cases hr : route n (should_continue (mergeState s u)) with
      | stop =>
        exact ⟨rest, by rw [runList_cons_stop ags n rest s u hinv hr]; rfl⟩
      | invalid =>
        exact ⟨rest, by rw [runList_cons_invalid ags n rest s u hinv hr]; rfl⟩
      | next =>
        obtain ⟨t, ht⟩ := ih (mergeState s u)
        refine ⟨t, ?_⟩
        rw [runList_cons_next ags n rest s u hinv hr]
        simpa using ht

theorem runList_step_inv (ags : StageSet) :
    ∀ (nodes : List Node) (s : KarigarState) (pre post : List Step) (st : Step),
      (runList ags nodes s).1 = pre ++ st :: post →
      invokeStage ags st.node st.stateBefore = .ok st.update ∧
      st.stateAfter = mergeState st.stateBefore st.update ∧
      (route st.node (should_continue st.stateAfter) ≠ Route.next →
        post = [] ∧
        (route st.node (should_continue st.stateAfter) = Route.stop →
          (runList ags nodes s).2 = .ok st.stateAfter)) := by
  intro nodes
  induction nodes with
  | nil =>
    intro s pre post st h
    rw [runList_nil] at h
    exact absurd h.symm
      (List.append_ne_nil_of_right_ne_nil pre (List.cons_ne_nil st post))
  | cons n rest ih =>
    intro s pre post st h
    cases hinv : invokeStage ags n s with
    | error e =>
      rw [runList_cons_error ags n rest s e hinv] at h
      exact absurd h.symm
        (List.append_ne_nil_of_right_ne_nil pre (List.cons_ne_nil st post))
    | ok u =>
      cases hr : route n (should_continue (mergeState s u)) with
      | stop =>
        rw [runList_cons_stop ags n rest s u hinv hr] at h
        obtain ⟨hpre, hst, hpost⟩ := singleton_decomp _ st pre post h
        subst hst
        refine ⟨hinv, rfl, fun _ => ⟨hpost, fun _ => ?_⟩⟩
        rw [runList_cons_stop ags n rest s u hinv hr]
      | invalid =>
        rw [runList_cons_invalid ags n rest s u hinv hr] at h
        obtain ⟨hpre, hst, hpost⟩ := singleton_decomp _ st pre post h
        subst hst
        refine ⟨hinv, rfl, fun _ => ⟨hpost, fun hstop => ?_⟩⟩
        rw [hr] at hstop
        exact absurd hstop (by simp)
      | next =>
        rw [runList_cons_next ags n rest s u hinv hr] at h
        cases pre with
        | nil =>
          simp only [List.nil_append] at h
          have h2 := (List.cons.injEq _ _ _ _).mp h
          obtain ⟨hst, hpost⟩ := h2
          subst hst
          exact ⟨hinv, rfl, fun hne => absurd hr hne⟩
        | cons p pre2 =>
          simp only [List.cons_append] at h
          have h2 := (List.cons.injEq _ _ _ _).mp h
          have h3 := ih (mergeState s u) pre2 post st h2.2
          refine ⟨h3.1, h3.2.1, fun hne => ⟨(h3.2.2 hne).1, fun hstop => ?_⟩⟩
          rw [runList_cons_next ags n rest s u hinv hr]
          exact (h3.2.2 hne).2 hstop

/-- Once a step's after-state carries the error status, the policy answers
end, every node's edge map routes end to END, so that step is the last
invocation and the run returns its after-state. -/
theorem runList_error_stops (ags : StageSet) (nodes : List Node)
    (s : KarigarState) (pre post : List Step) (st : Step)
    (h : (runList ags nodes s).1 = pre ++ st :: post)
    (herr : st.stateAfter.status = some "error") :
    post = [] ∧ (runList ags nodes s).2 = .ok st.stateAfter := by
  have h3 := runList_step_inv ags nodes s pre post st h
  have hsc : should_continue st.stateAfter = "end" :=
    should_continue_error st.stateAfter herr
  have hroute : route st.node (should_continue st.stateAfter) = Route.stop := by
    rw [hsc]
    exact route_end_stop st.node
  have hne : route st.node (should_continue st.stateAfter) ≠ Route.next := by
    rw [hroute]
    simp
  exact ⟨(h3.2.2 hne).1, (h3.2.2 hne).2 hroute⟩

/-- A failed extraction block always reports the error status. -/
theorem intakeExtract_error_status (env : IntakeEnv) (ui : String)
    (u : StateUpdate) (h : intakeExtract env ui = .error u) :
    u.status = some "error" := by
  unfold intakeExtract at h
  repeat' split at h
  all_goals (cases h <;> rfl)

/-- Every exit path of IntakeAgent.process sets one of its two status
tags. -/
theorem intake_status_range (env : IntakeEnv) (s : KarigarState) :
    (IntakeAgent.process env s).status = some "error" ∨
    (IntakeAgent.process env s).status = some "intake_complete" := by
  unfold IntakeAgent.process
  dsimp only []
  repeat' split
  all_goals (try (first | (left; rfl) | (right; rfl)))
  all_goals (rename_i u heq; exact Or.inl (intakeExtract_error_status _ _ u heq))

/-- Every exit path of SupplierAgent.process sets one of its two status
tags. -/
theorem supplier_status_range (env : SupplierEnv) (s : KarigarState) :
    (SupplierAgent.process env s).status = some "error" ∨
    (SupplierAgent.process env s).status = some "supplier_search_complete" := by
  unfold SupplierAgent.process
  repeat' split
  all_goals (first | (left; rfl) | (right; rfl))

/-- Every exit path of CommitAgent.process sets one of its two status
tags. -/
theorem commit_status_range (env : CommitEnv) (s : KarigarState) :
    (CommitAgent.process env s).status = some "error" ∨
    (CommitAgent.process env s).status = some "commit_complete" := by
  unfold CommitAgent.process
  dsimp only []
  repeat' split
  all_goals (first | (left; rfl) | (right; rfl))

/-- Every exit path of SalesAgent.process sets one of its three status
tags. -/
theorem sales_status_range (env : SalesEnv) (s : KarigarState) :
    (SalesAgent.process env s).status = some "error" ∨
    (SalesAgent.process env s).status = some "sales_skipped" ∨
    (SalesAgent.process env s).status = some "sales_complete" := by
  unfold SalesAgent.process
  repeat' split
  all_goals (first | (left; rfl) | (right; left; rfl) | (right; right; rfl))

/-- Every exit path of CashAgent.process sets one of its three status
tags. -/
theorem cash_status_range (env : CashEnv) (s : KarigarState) :
    (CashAgent.process env s).status = some "error" ∨
    (CashAgent.process env s).status = some "cash_skipped" ∨
    (CashAgent.process env s).status = some "cash_complete" := by
  unfold CashAgent.process
  repeat' split
  all_goals (first | (left; rfl) | (right; left; rfl) | (right; right; rfl))

/-- Status intake_complete routes to the supplier stage. -/
theorem should_continue_intake_complete (s : KarigarState)
    (h : s.status = some "intake_complete") : should_continue s = "supplier" := by
  simp [should_continue, h]

/-- Status supplier_search_complete routes to the commit stage. -/
theorem should_continue_supplier_complete (s : KarigarState)
    (h : s.status = some "supplier_search_complete") : should_continue s = "commit" := by
  simp [should_continue, h]

/-- Status commit_complete routes to the sales stage. -/
theorem should_continue_commit_complete (s : KarigarState)
    (h : s.status = some "commit_complete") : should_continue s = "sales" := by
  simp [should_continue, h]

/-- Status sales_complete routes to the cash stage. -/
theorem should_continue_sales_complete (s : KarigarState)
    (h : s.status = some "sales_complete") : should_continue s = "cash" := by
  simp [should_continue, h]

/-- Status sales_skipped routes to the cash stage. -/
theorem should_continue_sales_skipped (s : KarigarState)
    (h : s.status = some "sales_skipped") : should_continue s = "cash" := by
  simp [should_continue, h]

/-- Status cash_complete routes to end. -/
theorem should_continue_cash_complete (s : KarigarState)
    (h : s.status = some "cash_complete") : should_continue s = "end" := by
  simp [should_continue, h]

/-- A run of the packaged agents from the cash node returns a final
state. -/
theorem runCash_ok (env : AgentsEnv) (s : KarigarState) :
    ∃ sf, (runList (packagedAgents env) [Node.cash] s).2 = Except.ok sf := by
  have hinv : invokeStage (packagedAgents env) Node.cash s
      = .ok (CashAgent.process env.cash s) := rfl
  rcases cash_status_range env.cash s with h | h | h
  all_goals
    have hst := mergeState_status_some s _ _ h
  · rw [runList_cons_stop _ _ _ _ _ hinv (by rw [should_continue_error _ hst]; rfl)]
    exact ⟨_, rfl⟩
  · rw [runList_cons_stop _ _ _ _ _ hinv
      (by rw [should_continue_cash_skipped _ hst]; rfl)]
    exact ⟨_, rfl⟩
  · rw [runList_cons_stop _ _ _ _ _ hinv
      (by rw [should_continue_cash_complete _ hst]; rfl)]
    exact ⟨_, rfl⟩

/-- A run of the packaged agents from the sales node returns a final
state. -/
theorem runSales_ok (env : AgentsEnv) (s : KarigarState) :
    ∃ sf, (runList (packagedAgents env) [Node.sales, Node.cash] s).2 = Except.ok sf := by
  have hinv : invokeStage (packagedAgents env) Node.sales s
      = .ok (SalesAgent.process env.sales s) := rfl
  rcases sales_status_range env.sales s with h | h | h
  all_goals
    have hst := mergeState_status_some s _ _ h
  · rw [runList_cons_stop _ _ _ _ _ hinv (by rw [should_continue_error _ hst]; rfl)]
    exact ⟨_, rfl⟩
  · rw [runList_cons_next _ _ _ _ _ hinv
      (by rw [should_continue_sales_skipped _ hst]; rfl)]
    exact runCash_ok env _
  · rw [runList_cons_next _ _ _ _ _ hinv
      (by rw [should_continue_sales_complete _ hst]; rfl)]
    exact runCash_ok env _

/-- A run of the packaged agents from the commit node returns a final
state. -/
theorem runCommit_ok (env : AgentsEnv) (s : KarigarState) :
    ∃ sf, (runList (packagedAgents env) [Node.commit, Node.sales, Node.cash] s).2
      = Except.ok sf := by
  have hinv : invokeStage (packagedAgents env) Node.commit s
      = .ok (CommitAgent.process env.commit s) := rfl
  rcases commit_status_range env.commit s with h | h
  all_goals
    have hst := mergeState_status_some s _ _ h
  · rw [runList_cons_stop _ _ _ _ _ hinv (by rw [should_continue_error _ hst]; rfl)]
    exact ⟨_, rfl⟩
  · rw [runList_cons_next _ _ _ _ _ hinv
      (by rw [should_continue_commit_complete _ hst]; rfl)]
    exact runSales_ok env _

/-- A run of the packaged agents from the supplier node returns a final
state. -/
theorem runSupplier_ok (env : AgentsEnv) (s : KarigarState) :
    ∃ sf, (runList (packagedAgents env)
      [Node.supplier, Node.commit, Node.sales, Node.cash] s).2 = Except.ok sf := by
  have hinv : invokeStage (packagedAgents env) Node.supplier s
      = .ok (SupplierAgent.process env.supplier s) := rfl
  rcases supplier_status_range env.supplier s with h | h
  all_goals
    have hst := mergeState_status_some s _ _ h
  · rw [runList_cons_stop _ _ _ _ _ hinv (by rw [should_continue_error _ hst]; rfl)]
    exact ⟨_, rfl⟩
  · rw [runList_cons_next _ _ _ _ _ hinv
      (by rw [should_continue_supplier_complete _ hst]; rfl)]
    exact runCommit_ok env _

/-- Claim C1, counterexample: the orchestrator's run installs no fault
handler.  With a stage registry whose intake stage raises, the run from
the blank state propagates the fault to its caller (the outcome is the
raised fault, no stage invocation completes and no error-tagged final
state is returned), contradicting the claim that run catches the fault,
merges a structured error and returns the state normally. -/
theorem c1_counterexample :
    (KarigarWorkflow.run raisingStages s0Blank).2 = Except.error "boom" ∧
    (KarigarWorkflow.run raisingStages s0Blank).1 = [] :=
  ⟨rfl, rfl⟩

/-- Claim C1, amended: fault containment lives inside the stages, not in
run.  With the five packaged agents, each of whose process bodies catches
its own faults and returns a structured error update, every run returns a
final state normally; a stage that did raise would propagate out of run,
which installs no handler of its own. -/
theorem c1_run_returns_with_packaged_stages (env : AgentsEnv) (s0 : KarigarState) :
    ∃ sf, (KarigarWorkflow.run (packagedAgents env) s0).2 = Except.ok sf := by
  unfold KarigarWorkflow.run pipelineNodes
  have hinv : invokeStage (packagedAgents env) Node.intake s0
      = .ok (IntakeAgent.process env.intake s0) := rfl
  rcases intake_status_range env.intake s0 with h | h
  all_goals
    have hst := mergeState_status_some s0 _ _ h
  · rw [runList_cons_stop _ _ _ _ _ hinv (by rw [should_continue_error _ hst]; rfl)]
    exact ⟨_, rfl⟩
  · rw [runList_cons_next _ _ _ _ _ hinv
      (by rw [should_continue_intake_complete _ hst]; rfl)]
    exact runSupplier_ok env _

/-- Witness for the amended claim C1 at a concrete input: the theorem
applied to the minimal environment and the blank state. -/
theorem c1_witness :
    ∃ sf, (KarigarWorkflow.run (packagedAgents envEmpty) s0Blank).2 = Except.ok sf :=
  c1_run_returns_with_packaged_stages envEmpty s0Blank

/-- Claim C2: whenever a stage invocation of a run returns a partial
update tagged with the error status, that invocation is the last of the
run (no further stage is invoked) and the run returns a final state whose
status is the error tag. -/
theorem c2_error_update_short_circuit (ags : StageSet) (s0 : KarigarState)
    (pre post : List Step) (st : Step)
    (h : (KarigarWorkflow.run ags s0).1 = pre ++ st :: post)
    (herr : st.update.status = some "error") :
    post = [] ∧
    (KarigarWorkflow.run ags s0).2 = Except.ok st.stateAfter ∧
    st.stateAfter.status = some "error" := by
  have hinv := runList_step_inv ags pipelineNodes s0 pre post st h
  have hst : st.stateAfter.status = some "error" := by
    rw [hinv.2.1]
    exact mergeState_status_some _ _ _ herr
  have h2 := runList_error_stops ags pipelineNodes s0 pre post st h hst
  exact ⟨h2.1, h2.2, hst⟩

/-- Witness for claim C2 at a concrete input: running the packaged agents
from the blank state, the intake stage reports a structured error, is the
only invocation, and the run returns the error-tagged state. -/
theorem c2_witness :
    (KarigarWorkflow.run (packagedAgents envEmpty) s0Blank).1 = [] ++ c2Step :: [] ∧
    c2Step.update.status = some "error" ∧
    (([] : List Step) = [] ∧
      (KarigarWorkflow.run (packagedAgents envEmpty) s0Blank).2
        = Except.ok c2Step.stateAfter ∧
      c2Step.stateAfter.status = some "error") :=
  ⟨rfl, rfl, c2_error_update_short_circuit (packagedAgents envEmpty) s0Blank
    [] [] c2Step rfl rfl⟩

/-- Claim C3: the transition policy realises exactly the canonical table,
every status outside the table falling through to end, and a state tagged
sales_skipped proceeds to the cash stage rather than terminating or
erroring. -/
theorem c3_transition_table (s : KarigarState) :
    should_continue s = specNext s.status ∧
    should_continue { s with status := some "sales_skipped" } = "cash" := by
  constructor
  · unfold should_continue specNext
    split_ifs <;> simp_all
  · rfl

/-- Claim C4, counterexample: an initial state already tagged with the
error status does not terminate as-is; the graph's START edge is
unconditional, so the intake stage executes anyway and the run returns a
state differing from the initial one (intake's structured error message
has been merged). -/
theorem c4_counterexample :
    (KarigarWorkflow.run (packagedAgents envEmpty) s0ErrInit).1 = [c4Step] ∧
    c4Step.node = Node.intake ∧
    (KarigarWorkflow.run (packagedAgents envEmpty) s0ErrInit).2
      = Except.ok c4Step.stateAfter ∧
    c4Step.stateAfter ≠ s0ErrInit :=
  ⟨rfl, rfl, rfl, by decide⟩

/-- Claim C4, amended: after any stage invocation whose merged state
carries the error status, no further stage executes and the run returns
that state unchanged; the entry edge however is unconditional, so the
intake stage always executes first, even when the initial state is
already tagged with the error status. -/
theorem c4_error_state_short_circuit (ags : StageSet) (s0 : KarigarState)
    (pre post : List Step) (st : Step)
    (h : (KarigarWorkflow.run ags s0).1 = pre ++ st :: post)
    (herr : st.stateAfter.status = some "error") :
    post = [] ∧ (KarigarWorkflow.run ags s0).2 = Except.ok st.stateAfter :=
  runList_error_stops ags pipelineNodes s0 pre post st h herr

/-- Witness for the amended claim C4 at a concrete input: from the
error-tagged initial state, intake executes, its merged state carries the
error status, and the run stops there returning it. -/
theorem c4_witness :
    (KarigarWorkflow.run (packagedAgents envEmpty) s0ErrInit).1 = [] ++ c4Step :: [] ∧
    c4Step.stateAfter.status = some "error" ∧
    (([] : List Step) = [] ∧
      (KarigarWorkflow.run (packagedAgents envEmpty) s0ErrInit).2
        = Except.ok c4Step.stateAfter) :=
  ⟨rfl, rfl, c4_error_state_short_circuit (packagedAgents envEmpty) s0ErrInit
    [] [] c4Step rfl rfl⟩

/-- Claim C6: a run performs at most five stage invocations, five being
the number of distinct stage names in the registry, and no stage is
invoked more than once. -/
theorem c6_bounded_invocations (ags : StageSet) (s0 : KarigarState) :
    pipelineNodes.length = 5 ∧
    (KarigarWorkflow.run ags s0).1.length ≤ 5 ∧
    ((KarigarWorkflow.run ags s0).1.map Step.node).Nodup := by
  obtain ⟨t, ht⟩ := runList_trace_initial ags pipelineNodes s0
  have hsub : ((KarigarWorkflow.run ags s0).1.map Step.node).Sublist pipelineNodes := by
    rw [← ht]
    exact List.sublist_append_left _ t
  refine ⟨rfl, ?_, ?_⟩
  · have h1 := hsub.length_le
    rw [List.length_map] at h1
    exact h1
  · exact (by decide : pipelineNodes.Nodup).sublist hsub

/-- Claim C5, amended: the merge deletes no key; every key present in the
update other than messages overwrites the state's value with the update's
value; the messages channel instead appends the update's messages (the
add_messages reducer declared in state.py); and merging the empty update
is the identity. -/
theorem c5_merge_semantics (s : KarigarState) (u : StateUpdate) :
    mergeState s {} = s ∧
    (mergeState s u).messages = s.messages ++ (u.messages).getD [] ∧
    (u.artisan_id = none → (mergeState s u).artisan_id = s.artisan_id) ∧
    (∀ v, u.artisan_id = some v → (mergeState s u).artisan_id = some v) ∧
    (u.artisan_name = none → (mergeState s u).artisan_name = s.artisan_name) ∧
    (∀ v, u.artisan_name = some v → (mergeState s u).artisan_name = some v) ∧
    (u.artisan_phone = none → (mergeState s u).artisan_phone = s.artisan_phone) ∧
    (∀ v, u.artisan_phone = some v → (mergeState s u).artisan_phone = some v) ∧
    (u.artisan_location = none → (mergeState s u).artisan_location = s.artisan_location) ∧
    (∀ v, u.artisan_location = some v → (mergeState s u).artisan_location = some v) ∧
    (u.material_request = none → (mergeState s u).material_request = s.material_request) ∧
    (∀ v, u.material_request = some v → (mergeState s u).material_request = some v) ∧
    (u.request_id = none → (mergeState s u).request_id = s.request_id) ∧
    (∀ v, u.request_id = some v → (mergeState s u).request_id = some v) ∧
    (u.supplier_quotes = none → (mergeState s u).supplier_quotes = s.supplier_quotes) ∧
    (∀ v, u.supplier_quotes = some v → (mergeState s u).supplier_quotes = v) ∧
    (u.selected_quote = none → (mergeState s u).selected_quote = s.selected_quote) ∧
    (∀ v, u.selected_quote = some v → (mergeState s u).selected_quote = some v) ∧
    (u.order_id = none → (mergeState s u).order_id = s.order_id) ∧
    (∀ v, u.order_id = some v → (mergeState s u).order_id = some v) ∧
    (u.order_details = none → (mergeState s u).order_details = s.order_details) ∧
    (∀ v, u.order_details = some v → (mergeState s u).order_details = some v) ∧
    (u.payment_info = none → (mergeState s u).payment_info = s.payment_info) ∧
    (∀ v, u.payment_info = some v → (mergeState s u).payment_info = some v) ∧
    (u.po_path = none → (mergeState s u).po_path = s.po_path) ∧
    (∀ v, u.po_path = some v → (mergeState s u).po_path = some v) ∧
    (u.store_url = none → (mergeState s u).store_url = s.store_url) ∧
    (∀ v, u.store_url = some v → (mergeState s u).store_url = some v) ∧
    (u.store_id = none → (mergeState s u).store_id = s.store_id) ∧
    (∀ v, u.store_id = some v → (mergeState s u).store_id = some v) ∧
    (u.status = none → (mergeState s u).status = s.status) ∧
    (∀ v, u.status = some v → (mergeState s u).status = some v) ∧
    (u.error = none → (mergeState s u).error = s.error) ∧
    (∀ v, u.error = some v → (mergeState s u).error = some v) := by
  refine ⟨by cases s; simp [mergeState, upd], rfl,
    (fun h => by simp [mergeState, upd, h]),
    (fun v h => by simp [mergeState, upd, h]),
    (fun h => by simp [mergeState, upd, h]),
    (fun v h => by simp [mergeState, upd, h]),
    (fun h => by simp [mergeState, upd, h]),
    (fun v h => by simp [mergeState, upd, h]),
    (fun h => by simp [mergeState, upd, h]),
    (fun v h => by simp [mergeState, upd, h]),
    (fun h => by simp [mergeState, upd, h]),
    (fun v h => by simp [mergeState, upd, h]),
    (fun h => by simp [mergeState, upd, h]),
    (fun v h => by simp [mergeState, upd, h]),
    (fun h => by simp [mergeState, upd, h]),
    (fun v h => by simp [mergeState, upd, h]),
    (fun h => by simp [mergeState, upd, h]),
    (fun v h => by simp [mergeState, upd, h]),
    (fun h => by simp [mergeState, upd, h]),
    (fun v h => by simp [mergeState, upd, h]),
    (fun h => by simp [mergeState, upd, h]),
    (fun v h => by simp [mergeState, upd, h]),
    (fun h => by simp [mergeState, upd, h]),
    (fun v h => by simp [mergeState, upd, h]),
    (fun h => by simp [mergeState, upd, h]),
    (fun v h => by simp [mergeState, upd, h]),
    (fun h => by simp [mergeState, upd, h]),
    (fun v h => by simp [mergeState, upd, h]),
    (fun h => by simp [mergeState, upd, h]),
    (fun v h => by simp [mergeState, upd, h]),
    (fun h => by simp [mergeState, upd, h]),
    (fun v h => by simp [mergeState, upd, h]),
    (fun h => by simp [mergeState, upd, h]),
    (fun v h => by simp [mergeState, upd, h])⟩
/-- Claim C5, counterexample: merging an update whose messages key holds a
second message into a state holding a first message appends rather than
overwrites — the merged messages list is both messages, not the update's
value, because the messages channel is declared with the add_messages
reducer. -/
theorem c5_counterexample :
    (mergeState { messages := [msgA] } { messages := some [msgB] }).messages
      = [msgA, msgB] ∧
    [msgA, msgB] ≠ [msgB] :=
  ⟨rfl, by decide⟩

/-- Witness for the amended claim C5 at concrete inputs: merging the empty
update into the blank state is the identity; an update without the
artisan_id key preserves it, an update carrying it overwrites it. -/
theorem c5_witness :
    mergeState s0Blank {} = s0Blank ∧
    (errUpdate "m").artisan_id = none ∧
    (mergeState s0Blank (errUpdate "m")).artisan_id = none ∧
    ({ artisan_id := some "A" } : StateUpdate).artisan_id = some "A" ∧
    (mergeState s0Blank { artisan_id := some "A" }).artisan_id = some "A" := by
  have h1 := c5_merge_semantics s0Blank (errUpdate "m")
  have h2 := c5_merge_semantics s0Blank { artisan_id := some "A" }
  exact ⟨h1.1, rfl, h1.2.2.1 rfl, rfl, h2.2.2.2.1 "A" rfl⟩

/-- An initial segment of the pipeline that ends at the supplier node is
exactly intake followed by supplier. -/
theorem segment_ending_supplier (l2 t : List Node)
    (h : (l2 ++ [Node.supplier]) ++ t = pipelineNodes) : l2 = [Node.intake] := by
  rcases l2 with _ | ⟨a, l3⟩
  · simp [pipelineNodes] at h
  rcases l3 with _ | ⟨b, l4⟩
  · simp [pipelineNodes] at h
    rw [h.1]
  · exfalso
    simp [pipelineNodes] at h
    have hm : Node.supplier ∈ l4 ++ Node.supplier :: t := by simp
    rw [h.2.2] at hm
    simp at hm

/-- Claim C7: in any run in which the supplier stage returns an
error-tagged update carrying a message, the run ends there: the final
state carries the error status and that message, the trace is exactly
intake then supplier, and the commit, sales and cash stages are never
invoked. -/
theorem c7_supplier_error_run (ags : StageSet) (s0 : KarigarState)
    (pre post : List Step) (st : Step) (m : String)
    (h : (KarigarWorkflow.run ags s0).1 = pre ++ st :: post)
    (hnode : st.node = Node.supplier)
    (hstatus : st.update.status = some "error")
    (herrm : st.update.error = some m) :
    post = [] ∧
    (KarigarWorkflow.run ags s0).2 = Except.ok st.stateAfter ∧
    st.stateAfter.status = some "error" ∧
    st.stateAfter.error = some m ∧
    (KarigarWorkflow.run ags s0).1.map Step.node = [Node.intake, Node.supplier] ∧
    Node.commit ∉ (KarigarWorkflow.run ags s0).1.map Step.node ∧
    Node.sales ∉ (KarigarWorkflow.run ags s0).1.map Step.node ∧
    Node.cash ∉ (KarigarWorkflow.run ags s0).1.map Step.node := by
  have hinv := runList_step_inv ags pipelineNodes s0 pre post st h
  have hstA : st.stateAfter.status = some "error" := by
    rw [hinv.2.1]
    exact mergeState_status_some _ _ _ hstatus
  have herrA : st.stateAfter.error = some m := by
    rw [hinv.2.1]
    exact mergeState_error_some _ _ _ herrm
  obtain ⟨hpost, hout⟩ := runList_error_stops ags pipelineNodes s0 pre post st h hstA
  subst hpost
  obtain ⟨t, ht⟩ := runList_trace_initial ags pipelineNodes s0
  rw [show (runList ags pipelineNodes s0).1 = (KarigarWorkflow.run ags s0).1 from rfl, h,
    List.map_append] at ht
  have hstn : List.map Step.node [st] = [Node.supplier] := by simp [hnode]
  rw [hstn] at ht
  have hpre : pre.map Step.node = [Node.intake] := segment_ending_supplier _ t ht
  have htr : (KarigarWorkflow.run ags s0).1.map Step.node
      = [Node.intake, Node.supplier] := by
    rw [h, List.map_append, hstn, hpre]
    rfl
  refine ⟨rfl, hout, hstA, herrA, htr, ?_, ?_, ?_⟩
  all_goals rw [htr]
  all_goals decide

/-- Witness for claim C7 at a concrete input: with a succeeding intake and
a supplier search that finds nothing, the run performs exactly the intake
and supplier invocations, the supplier update carries the no-suppliers
message, and the final state carries that error. -/
theorem c7_witness :
    (KarigarWorkflow.run (packagedAgents envNoSuppliers) s0Typical).1
      = [c7StepIntake] ++ c7StepSupplier :: [] ∧
    c7StepSupplier.node = Node.supplier ∧
    c7StepSupplier.update.status = some "error" ∧
    c7StepSupplier.update.error
      = some "No suppliers found for the material and location." ∧
    (([] : List Step) = [] ∧
      (KarigarWorkflow.run (packagedAgents envNoSuppliers) s0Typical).2
        = Except.ok c7StepSupplier.stateAfter ∧
      c7StepSupplier.stateAfter.status = some "error" ∧
      c7StepSupplier.stateAfter.error
        = some "No suppliers found for the material and location." ∧
      (KarigarWorkflow.run (packagedAgents envNoSuppliers) s0Typical).1.map Step.node
        = [Node.intake, Node.supplier] ∧
      Node.commit ∉ (KarigarWorkflow.run (packagedAgents envNoSuppliers) s0Typical).1.map Step.node ∧
      Node.sales ∉ (KarigarWorkflow.run (packagedAgents envNoSuppliers) s0Typical).1.map Step.node ∧
      Node.cash ∉ (KarigarWorkflow.run (packagedAgents envNoSuppliers) s0Typical).1.map Step.node) :=
  ⟨rfl, rfl, rfl, rfl,
   c7_supplier_error_run (packagedAgents envNoSuppliers) s0Typical
     [c7StepIntake] [] c7StepSupplier
     "No suppliers found for the material and location." rfl rfl rfl rfl⟩

/-- Claim C8: whenever the messages field is absent or empty, or the last
message's content is blank, IntakeAgent.process returns the structured
no-input failure (and, being a total function of its environment and
state, does not raise); absence of the field is a valid input. -/
theorem c8_intake_missing_input (env : IntakeEnv) (s : KarigarState)
    (h : isBlank (((s.messages.getLast?).map Message.content).getD "") = true) :
    IntakeAgent.process env s = errUpdate "No input provided" := by
  unfold IntakeAgent.process
  simp [h]

/-- Witness for claim C8 at a concrete input: a state whose only message
is whitespace. -/
theorem c8_witness :
    isBlank (((s0BlankMsg.messages.getLast?).map Message.content).getD "") = true ∧
    IntakeAgent.process envEmpty.intake s0BlankMsg = errUpdate "No input provided" :=
  ⟨rfl, c8_intake_missing_input envEmpty.intake s0BlankMsg rfl⟩

/-- Claim C9: for every environment and input state, each of the five
agents' process functions returns an update carrying a status key, and
the corresponding packaged stage invocation returns that update rather
than raising: fault containment is implemented inside the stages (their
catch-all handlers, modelled by the total process functions converting
every environment fault into a structured error), not in the
orchestrator. -/
theorem c9_stages_contain_faults (env : AgentsEnv) (s : KarigarState) :
    ((packagedAgents env).intake s = Except.ok (IntakeAgent.process env.intake s) ∧
      (IntakeAgent.process env.intake s).status.isSome) ∧
    ((packagedAgents env).supplier s = Except.ok (SupplierAgent.process env.supplier s) ∧
      (SupplierAgent.process env.supplier s).status.isSome) ∧
    ((packagedAgents env).commit s = Except.ok (CommitAgent.process env.commit s) ∧
      (CommitAgent.process env.commit s).status.isSome) ∧
    ((packagedAgents env).sales s = Except.ok (SalesAgent.process env.sales s) ∧
      (SalesAgent.process env.sales s).status.isSome) ∧
    ((packagedAgents env).cash s = Except.ok (CashAgent.process env.cash s) ∧
      (CashAgent.process env.cash s).status.isSome) := by
  refine ⟨⟨rfl, ?_⟩, ⟨rfl, ?_⟩, ⟨rfl, ?_⟩, ⟨rfl, ?_⟩, ⟨rfl, ?_⟩⟩
  · rcases intake_status_range env.intake s with h | h <;> simp [h]
  · rcases supplier_status_range env.supplier s with h | h <;> simp [h]
  · rcases commit_status_range env.commit s with h | h <;> simp [h]
  · rcases sales_status_range env.sales s with h | h | h <;> simp [h]
  · rcases cash_status_range env.cash s with h | h | h <;> simp [h]

/-- Claim C10: on a state missing any of artisan_id, order_id or
order_details, CashAgent.process returns exactly the cash_skipped update;
that status matches no transition-table entry, so once the workflow is at
the cash stage on such a state the run performs this one invocation and
terminates with final status cash_skipped, neither cash_complete nor
error. -/
theorem c10_cash_skip_terminates (env : AgentsEnv) (s : KarigarState)
    (hmiss : s.artisan_id = none ∨ s.order_id = none ∨ s.order_details = none) :
    CashAgent.process env.cash s = { status := some "cash_skipped" } ∧
    should_continue (mergeState s { status := some "cash_skipped" }) = "end" ∧
    runList (packagedAgents env) [Node.cash] s
      = ([⟨Node.cash, s, { status := some "cash_skipped" },
           mergeState s { status := some "cash_skipped" }⟩],
         Except.ok (mergeState s { status := some "cash_skipped" })) ∧
    (mergeState s { status := some "cash_skipped" }).status = some "cash_skipped" := by
  have hskip : CashAgent.process env.cash s = { status := some "cash_skipped" } := by
    unfold CashAgent.process
    rcases hmiss with h | h | h <;>
      rcases ha : s.artisan_id with _ | a <;>
      rcases ho : s.order_id with _ | o <;>
      rcases hd : s.order_details with _ | d <;>
      simp_all
  have hst : (mergeState s { status := some "cash_skipped" }).status
      = some "cash_skipped" := mergeState_status_some _ _ _ rfl
  have hsc := should_continue_cash_skipped _ hst
  have hinv : invokeStage (packagedAgents env) Node.cash s
      = .ok ({ status := some "cash_skipped" } : StateUpdate) := by
    show Except.ok (CashAgent.process env.cash s) = _
    rw [hskip]
  refine ⟨hskip, hsc, ?_, hst⟩
  rw [runList_cons_stop _ _ _ _ _ hinv (by rw [hsc]; rfl)]

/-- Witness for claim C10 at a concrete input: the blank state misses all
three keys, the cash stage skips, and the run from the cash node ends
with final status cash_skipped. -/
theorem c10_witness :
    (s0Blank.artisan_id = none ∨ s0Blank.order_id = none ∨ s0Blank.order_details = none) ∧
    (CashAgent.process envEmpty.cash s0Blank = { status := some "cash_skipped" } ∧
      should_continue (mergeState s0Blank { status := some "cash_skipped" }) = "end" ∧
      runList (packagedAgents envEmpty) [Node.cash] s0Blank
        = ([⟨Node.cash, s0Blank, { status := some "cash_skipped" },
             mergeState s0Blank { status := some "cash_skipped" }⟩],
           Except.ok (mergeState s0Blank { status := some "cash_skipped" })) ∧
      (mergeState s0Blank { status := some "cash_skipped" }).status = some "cash_skipped") :=
  ⟨Or.inl rfl, c10_cash_skip_terminates envEmpty s0Blank (Or.inl rfl)⟩
